import Mathlib

/-
  Verification development for the obsidian-log-keeper plugin.

  The model below is a shallow embedding of the timestamp-log update engine
  found in the plugin source (the `ModifiedFileListPlugin` class: the methods
  `updateFrontmatter`, `fileWithinIgnoredFolders`, `getPropertyFromFrontMatter`
  and `getLatestMomentFromProperty`), together with the settings surface
  (`ModifiedFileListSettings` / default settings and the update-interval
  clamping performed by the settings tab).

  Timestamps are naive wall-clock values at second resolution, embedded as a
  record of calendar fields.  The moment.js operations used by the source are
  embedded at that resolution:
    - moment(s, 'YYYY-MM-DDTHH:mm:ss', true)  -> parseStrict
    - m.format('YYYY-MM-DDTHH:mm:ss')         -> format
    - now.diff(prev, 'seconds')               -> elapsedSeconds
    - now.isSame(prev, 'day')                 -> sameDay
  The JavaScript value Infinity (used by the source as the initial
  seconds-since-last-update) is embedded as `none : Option Int`.
-/

set_option maxRecDepth 4000

namespace LogKeeper

/-- A naive wall-clock instant at second resolution: the value space of the
timestamp codec (pattern YYYY-MM-DDTHH:mm:ss). -/
structure DateTime where
  year : Nat
  month : Nat
  day : Nat
  hour : Nat
  minute : Nat
  second : Nat
deriving DecidableEq, Repr

/-- Gregorian leap-year rule, as used by moment.js for date validation. -/
def isLeapYear (y : Nat) : Bool :=
  (y % 4 == 0 && y % 100 != 0) || y % 400 == 0

/-- Number of days in month m (1..12) of year y. -/
def daysInMonth (y m : Nat) : Nat :=
  if m == 2 then (if isLeapYear y then 29 else 28)
  else if m == 4 || m == 6 || m == 9 || m == 11 then 30
  else 31

/-- Number of days in year y. -/
def daysInYear (y : Nat) : Nat :=
  if isLeapYear y then 366 else 365

/-- Days in all years before year y (year 0 is the calendar origin). -/
def daysBeforeYear (y : Nat) : Nat :=
  (List.range y).foldl (fun acc k => acc + daysInYear k) 0

/-- Days in the months of year y strictly before month m. -/
def daysBeforeMonth (y m : Nat) : Nat :=
  (List.range (m - 1)).foldl (fun acc k => acc + daysInMonth y (k + 1)) 0

/-- Day number of a date counted from the calendar origin. -/
def toDayNumber (d : DateTime) : Nat :=
  daysBeforeYear d.year + daysBeforeMonth d.year d.month + (d.day - 1)

/-- Seconds from the calendar origin to the instant d. -/
def toSeconds (d : DateTime) : Nat :=
  toDayNumber d * 86400 + d.hour * 3600 + d.minute * 60 + d.second

/-- Embedding of moment diff in seconds: now.diff(prev, 'seconds').  At second
resolution this is the exact signed difference of absolute seconds. -/
def elapsedSeconds (now prev : DateTime) : Int :=
  (toSeconds now : Int) - (toSeconds prev : Int)

/-- Embedding of now.isSame(prev, 'day'): same year, month and calendar day. -/
def sameDay (a b : DateTime) : Bool :=
  a.year == b.year && a.month == b.month && a.day == b.day

/-- Validity of an instant as a calendar value representable in the fixed
pattern: the year fits in four digits and every field is in range. -/
def DateTime.Valid (d : DateTime) : Prop :=
  d.year ≤ 9999 ∧ 1 ≤ d.month ∧ d.month ≤ 12 ∧
  1 ≤ d.day ∧ d.day ≤ daysInMonth d.year d.month ∧
  d.hour ≤ 23 ∧ d.minute ≤ 59 ∧ d.second ≤ 59

instance (d : DateTime) : Decidable d.Valid := by
  unfold DateTime.Valid
  infer_instance

/-- Character for a decimal digit value. -/
def digitChar (n : Nat) : Char :=
  Char.ofNat (48 + n)

/-- Is c one of the characters 0..9. -/
def isDigit (c : Char) : Bool :=
  48 ≤ c.toNat && c.toNat ≤ 57

/-- Decimal value of a digit character. -/
def digitVal (c : Char) : Nat :=
  c.toNat - 48

/-- Two-digit zero-padded rendering, as produced by the moment format tokens
MM, DD, HH, mm and ss. -/
def pad2 (n : Nat) : List Char :=
  [digitChar (n / 10), digitChar (n % 10)]

/-- Four-digit zero-padded rendering, as produced by the moment format token
YYYY. -/
def pad4 (n : Nat) : List Char :=
  [digitChar (n / 1000), digitChar (n / 100 % 10), digitChar (n / 10 % 10), digitChar (n % 10)]

/-- Character list of currentMoment.format('YYYY-MM-DDTHH:mm:ss'). -/
def formatChars (d : DateTime) : List Char :=
  pad4 d.year ++ '-' :: (pad2 d.month ++ '-' :: (pad2 d.day ++ 'T' :: (pad2 d.hour ++ ':' :: (pad2 d.minute ++ ':' :: pad2 d.second))))

/-- Embedding of currentMoment.format('YYYY-MM-DDTHH:mm:ss'). -/
def format (d : DateTime) : String :=
  String.mk (formatChars d)

/-- Value of two digit characters. -/
def val2 (a b : Char) : Nat :=
  digitVal a * 10 + digitVal b

/-- Value of four digit characters. -/
def val4 (a b c d : Char) : Nat :=
  digitVal a * 1000 + digitVal b * 100 + digitVal c * 10 + digitVal d

/-- Range validation applied by a strict moment parse: month, day (against the
month length), hour, minute and second must all be in range. -/
def validRanges (d : DateTime) : Bool :=
  1 ≤ d.month && d.month ≤ 12 &&
  1 ≤ d.day && d.day ≤ daysInMonth d.year d.month &&
  d.hour ≤ 23 && d.minute ≤ 59 && d.second ≤ 59

/-- Read a two-digit zero-padded field, failing on any non-digit. -/
def readDigit2 (a b : Char) : Option Nat :=
  if isDigit a && isDigit b then some (val2 a b) else none

/-- Read a four-digit zero-padded field, failing on any non-digit. -/
def readDigit4 (a b c d : Char) : Option Nat :=
  if isDigit a && isDigit b && isDigit c && isDigit d then some (val4 a b c d) else none

/-- Strict parse of the exact pattern YYYY-MM-DDTHH:mm:ss on a character list:
exactly 19 characters, digits and separators in the exact positions, and the
decoded fields must form a real calendar date-time.  Any deviation yields
none. -/
def parseStrictChars : List Char → Option DateTime
  | [y1, y2, y3, y4, a, m1, m2, b, d1, d2, t, h1, h2, c, n1, n2, e, s1, s2] =>
    if a == '-' && b == '-' && t == 'T' && c == ':' && e == ':' then
      match readDigit4 y1 y2 y3 y4, readDigit2 m1 m2, readDigit2 d1 d2,
            readDigit2 h1 h2, readDigit2 n1 n2, readDigit2 s1 s2 with
      | some yy, some mo, some dd, some hh, some mi, some ss =>
        let dt : DateTime := ⟨yy, mo, dd, hh, mi, ss⟩
        if validRanges dt then some dt else none
      | _, _, _, _, _, _ => none
    else none
  | _ => none

/-- Embedding of moment(text, 'YYYY-MM-DDTHH:mm:ss', true): a Moment that
isValid() is `some instant`; an invalid Moment (or the JavaScript null used by
the source for a missing value) is `none`. -/
def parseStrict (s : String) : Option DateTime :=
  parseStrictChars s.data

/-- The dynamically typed value stored under the frontmatter key: absent (this
also covers any value that is neither a string nor an array, which the source
treats exactly like an absent one), a single legacy scalar string, or an array
of strings. -/
inductive RawValue where
  | absent
  | scalar (s : String)
  | seq (l : List String)
deriving DecidableEq, Repr

/-- The plugin settings record (interface ModifiedFileListSettings). -/
structure ModifiedFileListSettings where
  oneModificationPerDay : Bool
  updateInterval : Int
  ignoredFolders : List String
deriving DecidableEq, Repr

/-- Embedding of JavaScript path.startsWith(p): the characters of p are an
initial run of the characters of s. -/
def strStartsWith (s p : String) : Bool :=
  decide (s.data.take p.data.length = p.data)

/-- Embedding of fileWithinIgnoredFolders: some configured folder, with '/'
appended, is an initial run of the file path. -/
def fileWithinIgnoredFolders (settings : ModifiedFileListSettings) (path : String) : Bool :=
  settings.ignoredFolders.any (fun folder => strStartsWith path (folder ++ "/"))

/-- Embedding of getLatestMomentFromProperty: an array yields the strict parse
of its last element (an empty array yields an invalid Moment, since indexing
at -1 gives undefined), a scalar string yields its own strict parse, and
anything else yields null.  Null and an invalid Moment are both `none`, which
is faithful because the source only ever queries the value through
previousMoment?.isValid(). -/
def getLatestMomentFromProperty : RawValue → Option DateTime
  | RawValue.seq l =>
    match l.getLast? with
    | some s => parseStrict s
    | none => none
  | RawValue.scalar s => parseStrict s
  | RawValue.absent => none

/-- The secondsSinceLastUpdate variable of updateFrontmatter: it starts as the
JavaScript Infinity (`none`) and is replaced by the finite difference only
when one-modification-per-day is off and the previous Moment is valid. -/
def secondsSinceLastUpdate (value : RawValue) (now : DateTime)
    (settings : ModifiedFileListSettings) : Option Int :=
  if settings.oneModificationPerDay then none
  else
    match getLatestMomentFromProperty value with
    | some prev => some (elapsedSeconds now prev)
    | none => none

/-- The guard secondsSinceLastUpdate > updateInterval, with Infinity greater
than every finite interval. -/
def intervalExceeded (value : RawValue) (now : DateTime)
    (settings : ModifiedFileListSettings) : Bool :=
  match secondsSinceLastUpdate value now settings with
  | none => true
  | some d => d > settings.updateInterval

/-- JavaScript assignment a[i] = x on an array: in-place update when i is in
range, and extension when i equals the length.  The source only ever uses the
index max(length - 1, 0), so no other case arises. -/
def jsSetIndex (l : List String) (i : Nat) (x : String) : List String :=
  if i < l.length then l.set i x else l ++ [x]

/-- Result of one run of the processFrontMatter callback on the property
value: the value afterwards, and whether the assignment
frontmatter['last-modified'] = newEntries was executed. -/
structure UpdateResult where
  newValue : RawValue
  written : Bool
deriving DecidableEq, Repr

/-- The decision core of updateFrontmatter (everything after the ignored
folder gate), acting on the raw property value: when the interval guard
passes, rebuild the entry array (an array value is kept, anything else is
replaced by an empty array), then either overwrite the final slot (one
modification per day, valid previous Moment, same calendar day) or push the
formatted current Moment; otherwise leave the value untouched. -/
def decideNewEntries (value : RawValue) (now : DateTime)
    (settings : ModifiedFileListSettings) : UpdateResult :=
  if intervalExceeded value now settings then
    let newEntry : String := format now
    let entries : List String :=
      match value with
      | RawValue.seq l => l
      | _ => []
    let finalIndex : Nat := max (entries.length - 1) 0
    let newEntries : List String :=
      if settings.oneModificationPerDay then
        match getLatestMomentFromProperty value with
        | some prev =>
          if sameDay now prev then jsSetIndex entries finalIndex newEntry
          else entries ++ [newEntry]
        | none => entries ++ [newEntry]
      else entries ++ [newEntry]
    ⟨RawValue.seq newEntries, true⟩
  else ⟨value, false⟩

/-- A frontmatter block: a total map from property names to raw values (absent
keys map to RawValue.absent). -/
def Frontmatter : Type :=
  String → RawValue

/-- Embedding of updateFrontmatter: the processFrontMatter callback returns
immediately when the file path lies within an ignored folder; otherwise it
reads the 'last-modified' property, runs the decision core, and writes the
new entries back under 'last-modified' exactly when the interval guard
passed. -/
def updateFrontmatter (settings : ModifiedFileListSettings) (path : String)
    (fm : Frontmatter) (now : DateTime) : Frontmatter :=
  if fileWithinIgnoredFolders settings path then fm
  else
    let r := decideNewEntries (fm "last-modified") now settings
    if r.written then
      fun k => if k = "last-modified" then r.newValue else fm k
    else fm

/-- Lower clamp bound for the update interval (MIN_UPDATE_INTERVAL). -/
def MIN_UPDATE_INTERVAL : Int := 60

/-- Upper clamp bound for the update interval (MAX_UPDATE_INTERVAL). -/
def MAX_UPDATE_INTERVAL : Int := 84600

/-- DEFAULT_SETTINGS of the settings module (src/settings.ts): per-day logging
on, update interval 60, no ignored folders. -/
def DEFAULT_SETTINGS : ModifiedFileListSettings :=
  ⟨true, 60, []⟩

/-- The updateInterval field of DEFAULT_SETTINGS in the main.ts revision. -/
def mainDefaultUpdateInterval : Int := 2

/-- The update-interval onChange handler of the settings tab in settings.ts:
a malformed input (Number(value) is NaN, embedded as `none`) keeps the
previous stored value, a numeric value below the minimum or above the maximum
is clamped, and any other numeric value is stored as given. -/
def updateIntervalOnChange (previous : Int) (value : Option Int) : Int :=
  match value with
  | none => previous
  | some v =>
    if v < MIN_UPDATE_INTERVAL then MIN_UPDATE_INTERVAL
    else if v > MAX_UPDATE_INTERVAL then MAX_UPDATE_INTERVAL
    else v

/-- The update-interval onChange handler of the settings tab in the main.ts
revision: a malformed input or a value below the minimum becomes the minimum,
a value above the maximum becomes the maximum, and any other numeric value is
stored as given. -/
def updateIntervalOnChangeMain (value : Option Int) : Int :=
  match value with
  | none => MIN_UPDATE_INTERVAL
  | some v =>
    if v < MIN_UPDATE_INTERVAL then MIN_UPDATE_INTERVAL
    else if v > MAX_UPDATE_INTERVAL then MAX_UPDATE_INTERVAL
    else v

/-- Every decimal digit value yields a digit character. -/
theorem isDigit_digitChar : ∀ k : Nat, k < 10 → isDigit (digitChar k) = true := by
  decide

/-- Decoding a digit character recovers the digit value. -/
theorem digitVal_digitChar : ∀ k : Nat, k < 10 → digitVal (digitChar k) = k := by
  decide

/-- Reading back a two-digit zero-padded field recovers the number. -/
theorem readDigit2_pad2 (n : Nat) (h : n < 100) :
    readDigit2 (digitChar (n / 10)) (digitChar (n % 10)) = some n := by
  simp [readDigit2, isDigit_digitChar _ (show n / 10 < 10 by omega),
    isDigit_digitChar _ (show n % 10 < 10 by omega), val2,
    digitVal_digitChar _ (show n / 10 < 10 by omega),
    digitVal_digitChar _ (show n % 10 < 10 by omega)]
  omega

/-- Reading back a four-digit zero-padded field recovers the number. -/
theorem readDigit4_pad4 (n : Nat) (h : n < 10000) :
    readDigit4 (digitChar (n / 1000)) (digitChar (n / 100 % 10))
      (digitChar (n / 10 % 10)) (digitChar (n % 10)) = some n := by
  simp [readDigit4, isDigit_digitChar _ (show n / 1000 < 10 by omega),
    isDigit_digitChar _ (show n / 100 % 10 < 10 by omega),
    isDigit_digitChar _ (show n / 10 % 10 < 10 by omega),
    isDigit_digitChar _ (show n % 10 < 10 by omega), val4,
    digitVal_digitChar _ (show n / 1000 < 10 by omega),
    digitVal_digitChar _ (show n / 100 % 10 < 10 by omega),
    digitVal_digitChar _ (show n / 10 % 10 < 10 by omega),
    digitVal_digitChar _ (show n % 10 < 10 by omega)]
  omega

/-- Every month length is at most 31. -/
theorem daysInMonth_le (y m : Nat) : daysInMonth y m ≤ 31 := by
  unfold daysInMonth
  split
  · split <;> omega
  · split <;> omega

/-- A valid instant passes the range validation of the strict parser. -/
theorem validRanges_of_valid (d : DateTime) (h : d.Valid) : validRanges d = true := by
  obtain ⟨hy, hm1, hm2, hd1, hd2, hh, hn, hs⟩ := h
  simp only [validRanges, Bool.and_eq_true, decide_eq_true_eq]
  omega

/-- C7: for every representable wall-clock instant x at second resolution,
parsing the formatted string back with the strict parser yields x again:
ParseStrict(Format(x)) = some x, where Format renders the exact zero-padded
pattern YYYY-MM-DDTHH:mm:ss with no timezone offset. -/
theorem C7_codec_round_trip (d : DateTime) (h : d.Valid) :
    parseStrict (format d) = some d := by
  obtain ⟨hy, hm1, hm2, hd1, hd2, hh, hn, hs⟩ := h
  show parseStrictChars (formatChars d) = some d
  have hfc : formatChars d =
      [digitChar (d.year / 1000), digitChar (d.year / 100 % 10),
       digitChar (d.year / 10 % 10), digitChar (d.year % 10), '-',
       digitChar (d.month / 10), digitChar (d.month % 10), '-',
       digitChar (d.day / 10), digitChar (d.day % 10), 'T',
       digitChar (d.hour / 10), digitChar (d.hour % 10), ':',
       digitChar (d.minute / 10), digitChar (d.minute % 10), ':',
       digitChar (d.second / 10), digitChar (d.second % 10)] := rfl
  rw [hfc]
  simp only [parseStrictChars]
  rw [if_pos (by decide)]
  rw [readDigit4_pad4 d.year (by omega), readDigit2_pad2 d.month (by omega),
    readDigit2_pad2 d.day (by have := daysInMonth_le d.year d.month; omega),
    readDigit2_pad2 d.hour (by omega),
    readDigit2_pad2 d.minute (by omega), readDigit2_pad2 d.second (by omega)]
  show (if validRanges ⟨d.year, d.month, d.day, d.hour, d.minute, d.second⟩ = true
        then some ⟨d.year, d.month, d.day, d.hour, d.minute, d.second⟩ else none) = some d
  rw [if_pos (validRanges_of_valid d ⟨hy, hm1, hm2, hd1, hd2, hh, hn, hs⟩)]

/-- C7 witness: the round trip evaluated at the concrete instant
2024-02-29T23:59:59 (a leap-day boundary case). -/
theorem C7_codec_round_trip_witness :
    parseStrict (format ⟨2024, 2, 29, 23, 59, 59⟩) = some ⟨2024, 2, 29, 23, 59, 59⟩ :=
  C7_codec_round_trip ⟨2024, 2, 29, 23, 59, 59⟩ (by decide)

/-- The previous Moment of an array value is the strict parse of its last
element. -/
theorem getLatest_seq (l : List String) (last : String) (hlast : l.getLast? = some last) :
    getLatestMomentFromProperty (RawValue.seq l) = parseStrict last := by
  simp [getLatestMomentFromProperty, hlast]

/-- C1: in interval-throttle mode, for every log whose last entry parses as a
valid timestamp, elapsed seconds at most the interval leaves the log unchanged
with no write, and elapsed seconds strictly greater than the interval appends
Format(now) with a write. -/
theorem C1_interval_throttle (l : List String) (last : String) (prev now : DateTime)
    (cfg : ModifiedFileListSettings)
    (hmode : cfg.oneModificationPerDay = false)
    (hlast : l.getLast? = some last)
    (hparse : parseStrict last = some prev) :
    (elapsedSeconds now prev ≤ cfg.updateInterval →
      decideNewEntries (RawValue.seq l) now cfg = ⟨RawValue.seq l, false⟩) ∧
    (cfg.updateInterval < elapsedSeconds now prev →
      decideNewEntries (RawValue.seq l) now cfg = ⟨RawValue.seq (l ++ [format now]), true⟩) := by
  have hget : getLatestMomentFromProperty (RawValue.seq l) = some prev := by
    rw [getLatest_seq l last hlast, hparse]
  have hexc : intervalExceeded (RawValue.seq l) now cfg
      = decide (cfg.updateInterval < elapsedSeconds now prev) := by
    simp [intervalExceeded, secondsSinceLastUpdate, hmode, hget]
  constructor
  · intro hle
    have hfalse : intervalExceeded (RawValue.seq l) now cfg = false := by
      rw [hexc]
      simp
      omega
    simp [decideNewEntries, hfalse]
  · intro hgt
    have htrue : intervalExceeded (RawValue.seq l) now cfg = true := by
      rw [hexc]
      simpa using hgt
    simp [decideNewEntries, htrue, hmode]

/-- C1 witness: a 30-second-old last entry with a 60-second interval is left
unchanged and unwritten. -/
theorem C1_interval_throttle_witness :
    decideNewEntries (RawValue.seq ["0001-01-01T10:00:00"]) ⟨1, 1, 1, 10, 0, 30⟩ ⟨false, 60, []⟩
      = ⟨RawValue.seq ["0001-01-01T10:00:00"], false⟩ :=
  (C1_interval_throttle ["0001-01-01T10:00:00"] "0001-01-01T10:00:00"
    ⟨1, 1, 1, 10, 0, 0⟩ ⟨1, 1, 1, 10, 0, 30⟩ ⟨false, 60, []⟩
    rfl (by decide) (by decide)).1 (by decide)

/-- C2: in collapse-per-day mode, for every non-empty log whose last entry
parses as a timestamp on the same calendar day as now, the last element is
overwritten with Format(now) and the length of the resulting log equals the
length of the input log. -/
theorem C2_collapse_same_day (l : List String) (last : String) (prev now : DateTime)
    (cfg : ModifiedFileListSettings)
    (hmode : cfg.oneModificationPerDay = true)
    (hlast : l.getLast? = some last)
    (hparse : parseStrict last = some prev)
    (hday : sameDay now prev = true) :
    decideNewEntries (RawValue.seq l) now cfg
      = ⟨RawValue.seq (l.set (l.length - 1) (format now)), true⟩ ∧
    (l.set (l.length - 1) (format now)).length = l.length := by
  have hget : getLatestMomentFromProperty (RawValue.seq l) = some prev := by
    rw [getLatest_seq l last hlast, hparse]
  have hne : l ≠ [] := by
    intro hnil
    rw [hnil] at hlast
    simp at hlast
  have hlen : 1 ≤ l.length := List.length_pos.mpr hne
  have hexc : intervalExceeded (RawValue.seq l) now cfg = true := by
    simp [intervalExceeded, secondsSinceLastUpdate, hmode]
  constructor
  · have hlt : l.length - 1 < l.length := Nat.sub_lt (by omega) (by omega)
    simp [decideNewEntries, hexc, hmode, hget, hday, jsSetIndex, hlt]
  · simp

/-- C2 witness: a same-day later instant overwrites the single existing entry
and the length stays one. -/
theorem C2_collapse_same_day_witness :
    decideNewEntries (RawValue.seq ["2024-01-01T10:00:00"]) ⟨2024, 1, 1, 15, 30, 0⟩ ⟨true, 60, []⟩
      = ⟨RawValue.seq (["2024-01-01T10:00:00"].set 0 (format ⟨2024, 1, 1, 15, 30, 0⟩)), true⟩ ∧
    (["2024-01-01T10:00:00"].set 0 (format ⟨2024, 1, 1, 15, 30, 0⟩)).length = 1 :=
  C2_collapse_same_day ["2024-01-01T10:00:00"] "2024-01-01T10:00:00"
    ⟨2024, 1, 1, 10, 0, 0⟩ ⟨2024, 1, 1, 15, 30, 0⟩ ⟨true, 60, []⟩
    rfl (by decide) (by decide) (by decide)

/-- C3: for every non-empty log whose last entry fails strict parsing, the
call appends Format(now) with a write, in both modes: the collapse branch is
skipped (the previous Moment is invalid) and in interval mode the elapsed
time stays Infinity, so the interval guard always passes. -/
theorem C3_unparseable_last_appends (l : List String) (last : String) (now : DateTime)
    (cfg : ModifiedFileListSettings)
    (hlast : l.getLast? = some last)
    (hparse : parseStrict last = none) :
    decideNewEntries (RawValue.seq l) now cfg = ⟨RawValue.seq (l ++ [format now]), true⟩ := by
  have hget : getLatestMomentFromProperty (RawValue.seq l) = none := by
    rw [getLatest_seq l last hlast, hparse]
  have hexc : intervalExceeded (RawValue.seq l) now cfg = true := by
    simp [intervalExceeded, secondsSinceLastUpdate, hget]
  simp [decideNewEntries, hexc, hget]

/-- C3 witness: a corrupted last entry forces an append in interval mode even
for the immediately following second. -/
theorem C3_unparseable_last_appends_witness :
    decideNewEntries (RawValue.seq ["not-a-timestamp"]) ⟨2024, 1, 1, 10, 0, 1⟩ ⟨false, 60, []⟩
      = ⟨RawValue.seq (["not-a-timestamp"] ++ [format ⟨2024, 1, 1, 10, 0, 1⟩]), true⟩ :=
  C3_unparseable_last_appends ["not-a-timestamp"] "not-a-timestamp"
    ⟨2024, 1, 1, 10, 0, 1⟩ ⟨false, 60, []⟩ rfl (by decide)

/-- C4 counterexample: a legacy scalar value in valid timestamp format, thirty
seconds old under a sixty-second interval, is parsed as the previous timestamp
and suppresses the append: the call performs no update at all, refuting the
claim that a scalar is always treated as no valid previous timestamp. -/
theorem C4_scalar_suppresses_counterexample :
    decideNewEntries (RawValue.scalar "0001-01-01T10:00:00") ⟨1, 1, 1, 10, 0, 30⟩ ⟨false, 60, []⟩
      = ⟨RawValue.scalar "0001-01-01T10:00:00", false⟩ := by
  decide

/-- C4 amended: an absent (or non-string, non-array) value is treated as no
valid previous timestamp and always forces an update that installs the fresh
one-element array [Format(now)]; a scalar string, however, is strictly parsed
as the previous timestamp, so in interval mode a valid recent scalar
suppresses the append and the call leaves the value untouched. -/
theorem C4_scalar_parsed_amended (s : String) (prev now : DateTime)
    (cfg : ModifiedFileListSettings)
    (hmode : cfg.oneModificationPerDay = false)
    (hparse : parseStrict s = some prev)
    (hrecent : elapsedSeconds now prev ≤ cfg.updateInterval) :
    getLatestMomentFromProperty (RawValue.scalar s) = some prev ∧
    decideNewEntries (RawValue.scalar s) now cfg = ⟨RawValue.scalar s, false⟩ ∧
    decideNewEntries RawValue.absent now cfg = ⟨RawValue.seq [format now], true⟩ := by
  have hget : getLatestMomentFromProperty (RawValue.scalar s) = some prev := by
    simp [getLatestMomentFromProperty, hparse]
  have hexc : intervalExceeded (RawValue.scalar s) now cfg = false := by
    simp [intervalExceeded, secondsSinceLastUpdate, hmode, hget]
    omega
  refine ⟨hget, by simp [decideNewEntries, hexc], ?_⟩
  simp [decideNewEntries, intervalExceeded, secondsSinceLastUpdate,
    getLatestMomentFromProperty, hmode]

/-- C4 witness: the amended statement evaluated at a concrete recent scalar. -/
theorem C4_scalar_parsed_amended_witness :
    getLatestMomentFromProperty (RawValue.scalar "0001-01-01T10:00:00")
      = some ⟨1, 1, 1, 10, 0, 0⟩ ∧
    decideNewEntries (RawValue.scalar "0001-01-01T10:00:00") ⟨1, 1, 1, 10, 0, 30⟩ ⟨false, 60, []⟩
      = ⟨RawValue.scalar "0001-01-01T10:00:00", false⟩ ∧
    decideNewEntries RawValue.absent ⟨1, 1, 1, 10, 0, 30⟩ ⟨false, 60, []⟩
      = ⟨RawValue.seq [format ⟨1, 1, 1, 10, 0, 30⟩], true⟩ :=
  C4_scalar_parsed_amended "0001-01-01T10:00:00" ⟨1, 1, 1, 10, 0, 0⟩
    ⟨1, 1, 1, 10, 0, 30⟩ ⟨false, 60, []⟩ rfl (by decide) (by decide)

/-- C5: whenever the document path lies under an ignored folder, the call
returns the frontmatter completely unchanged, before any timestamp parsing or
policy decision is performed. -/
theorem C5_ignored_folder_gate (cfg : ModifiedFileListSettings) (path : String)
    (fm : Frontmatter) (now : DateTime)
    (h : fileWithinIgnoredFolders cfg path = true) :
    updateFrontmatter cfg path fm now = fm := by
  simp [updateFrontmatter, h]

/-- C5 witness: a document under the ignored folder Archive is never
stamped. -/
theorem C5_ignored_folder_gate_witness :
    updateFrontmatter ⟨true, 60, ["Archive"]⟩ "Archive/note.md"
      (fun _ => RawValue.absent) ⟨1, 1, 1, 0, 0, 0⟩
      = (fun _ => RawValue.absent) :=
  C5_ignored_folder_gate ⟨true, 60, ["Archive"]⟩ "Archive/note.md"
    (fun _ => RawValue.absent) ⟨1, 1, 1, 0, 0, 0⟩ (by decide)

/-- C6: the ignored-folder test holds exactly when some configured folder,
with the path separator appended, begins the document path; consequently the
entry Arch does not match a document under Archive/, and no single entry
matches every document (in particular none represents the vault root). -/
theorem C6_ignored_iff (cfg : ModifiedFileListSettings) (path : String) :
    (fileWithinIgnoredFolders cfg path = true ↔
      ∃ f, f ∈ cfg.ignoredFolders ∧ strStartsWith path (f ++ "/") = true) ∧
    fileWithinIgnoredFolders ⟨true, 60, ["Arch"]⟩ "Archive/note.md" = false ∧
    (∀ f : String, ∃ p : String, fileWithinIgnoredFolders ⟨true, 60, [f]⟩ p = false) := by
  refine ⟨?_, by decide, ?_⟩
  · simp [fileWithinIgnoredFolders, List.any_eq_true]
  · intro f
    refine ⟨"", ?_⟩
    simp only [fileWithinIgnoredFolders, List.any_cons, List.any_nil, Bool.or_false]
    simp only [strStartsWith, decide_eq_false_iff_not]
    intro h
    have hlen := congrArg List.length h
    simp [String.data_append] at hlen

/-- C8: whenever a call on an array value writes through the append branch,
the new value is the input array with Format(now) appended: the length grows
by exactly one and every prior entry is preserved unchanged in its original
position; in interval-throttle mode the append branch is the only writing
branch, so no existing entry is ever overwritten, even same-day. -/
theorem C8_append_invariant (l : List String) (now : DateTime)
    (cfg : ModifiedFileListSettings)
    (hw : (decideNewEntries (RawValue.seq l) now cfg).written = true)
    (hb : cfg.oneModificationPerDay = false ∨
      ∀ prev, getLatestMomentFromProperty (RawValue.seq l) = some prev →
        sameDay now prev = false) :
    (decideNewEntries (RawValue.seq l) now cfg).newValue
      = RawValue.seq (l ++ [format now]) ∧
    (l ++ [format now]).length = l.length + 1 ∧
    (l ++ [format now]).take l.length = l := by
  have hexc : intervalExceeded (RawValue.seq l) now cfg = true := by
    cases hexc : intervalExceeded (RawValue.seq l) now cfg
    · simp [decideNewEntries, hexc] at hw
    · rfl
  refine ⟨?_, by simp, List.take_left l [format now]⟩
  rcases hb with hmode | hday
  · simp [decideNewEntries, hexc, hmode]
  · cases hmode : cfg.oneModificationPerDay
    · simp [decideNewEntries, hexc, hmode]
    · cases hget : getLatestMomentFromProperty (RawValue.seq l) with
      | none => simp [decideNewEntries, hexc, hmode, hget]
      | some prev => simp [decideNewEntries, hexc, hmode, hget, hday prev hget]

/-- C8 witness: a same-day append in interval mode, two minutes after the last
entry, preserves the existing entry and appends one new entry. -/
theorem C8_append_invariant_witness :
    (decideNewEntries (RawValue.seq ["0001-01-01T10:00:00"]) ⟨1, 1, 1, 10, 2, 0⟩ ⟨false, 60, []⟩).newValue
      = RawValue.seq (["0001-01-01T10:00:00"] ++ [format ⟨1, 1, 1, 10, 2, 0⟩]) ∧
    (["0001-01-01T10:00:00"] ++ [format ⟨1, 1, 1, 10, 2, 0⟩]).length
      = (["0001-01-01T10:00:00"] : List String).length + 1 ∧
    (["0001-01-01T10:00:00"] ++ [format ⟨1, 1, 1, 10, 2, 0⟩]).take
        (["0001-01-01T10:00:00"] : List String).length
      = ["0001-01-01T10:00:00"] :=
  C8_append_invariant ["0001-01-01T10:00:00"] ⟨1, 1, 1, 10, 2, 0⟩ ⟨false, 60, []⟩
    (by decide) (Or.inl rfl)

/-- C9 counterexample: the default update interval of the main.ts revision is
2, strictly below the lower clamp bound of 60, so the configured default does
not lie inside the clamped bounds. -/
theorem C9_default_out_of_bounds :
    mainDefaultUpdateInterval < MIN_UPDATE_INTERVAL ∧
    ¬ (MIN_UPDATE_INTERVAL ≤ mainDefaultUpdateInterval ∧
       mainDefaultUpdateInterval ≤ MAX_UPDATE_INTERVAL) := by
  decide

/-- C9 amended: both settings-tab assignment handlers keep the stored update
interval inside [60, 84600] (out-of-range numeric values are clamped; a
malformed value keeps the previous stored value in the settings.ts revision
and becomes the minimum in the main.ts revision), and the settings.ts default
of 60 lies inside the bounds; the main.ts revision default of 2, however, lies
below the lower bound. -/
theorem C9_interval_clamped_amended (previous : Int) (value : Option Int)
    (hprev : MIN_UPDATE_INTERVAL ≤ previous ∧ previous ≤ MAX_UPDATE_INTERVAL) :
    (MIN_UPDATE_INTERVAL ≤ updateIntervalOnChange previous value ∧
      updateIntervalOnChange previous value ≤ MAX_UPDATE_INTERVAL) ∧
    (MIN_UPDATE_INTERVAL ≤ updateIntervalOnChangeMain value ∧
      updateIntervalOnChangeMain value ≤ MAX_UPDATE_INTERVAL) ∧
    (MIN_UPDATE_INTERVAL ≤ DEFAULT_SETTINGS.updateInterval ∧
      DEFAULT_SETTINGS.updateInterval ≤ MAX_UPDATE_INTERVAL) ∧
    mainDefaultUpdateInterval < MIN_UPDATE_INTERVAL := by
  obtain ⟨h1, h2⟩ := hprev
  rcases value with _ | v
  · simp_all [updateIntervalOnChange, updateIntervalOnChangeMain,
      MIN_UPDATE_INTERVAL, MAX_UPDATE_INTERVAL, DEFAULT_SETTINGS,
      mainDefaultUpdateInterval]
  · simp only [updateIntervalOnChange, updateIntervalOnChangeMain,
      MIN_UPDATE_INTERVAL, MAX_UPDATE_INTERVAL, DEFAULT_SETTINGS,
      mainDefaultUpdateInterval] at h1 h2 ⊢
    refine ⟨?_, ?_, by omega, by omega⟩ <;> split <;> omega

/-- C9 witness: the amended statement evaluated at the in-bounds previous
value 60 and a malformed input. -/
theorem C9_interval_clamped_amended_witness :
    (MIN_UPDATE_INTERVAL ≤ updateIntervalOnChange 60 none ∧
      updateIntervalOnChange 60 none ≤ MAX_UPDATE_INTERVAL) ∧
    (MIN_UPDATE_INTERVAL ≤ updateIntervalOnChangeMain none ∧
      updateIntervalOnChangeMain none ≤ MAX_UPDATE_INTERVAL) ∧
    (MIN_UPDATE_INTERVAL ≤ DEFAULT_SETTINGS.updateInterval ∧
      DEFAULT_SETTINGS.updateInterval ≤ MAX_UPDATE_INTERVAL) ∧
    mainDefaultUpdateInterval < MIN_UPDATE_INTERVAL :=
  C9_interval_clamped_amended 60 none (by decide)

/-- C10: in every call, no frontmatter property other than last-modified is
ever written; and when no new entry is decided (the interval guard fails, or
the path is ignored), the frontmatter is returned exactly as it was, whatever
the stored shape of last-modified, so normalization is never persisted on its
own. -/
theorem C10_frame (cfg : ModifiedFileListSettings) (path : String)
    (fm : Frontmatter) (now : DateTime) :
    (∀ k, k ≠ "last-modified" → updateFrontmatter cfg path fm now k = fm k) ∧
    ((decideNewEntries (fm "last-modified") now cfg).written = false →
      updateFrontmatter cfg path fm now = fm) ∧
    (fileWithinIgnoredFolders cfg path = true →
      updateFrontmatter cfg path fm now = fm) := by
  refine ⟨?_, ?_, ?_⟩
  · intro k hk
    by_cases hig : fileWithinIgnoredFolders cfg path = true
    · simp [updateFrontmatter, hig]
    · simp only [updateFrontmatter, hig, if_false, Bool.false_eq_true]
      split
      · simp [hk]
      · rfl
  · intro hw
    by_cases hig : fileWithinIgnoredFolders cfg path = true
    · simp [updateFrontmatter, hig]
    · simp [updateFrontmatter, hig, hw]
  · intro hig
    simp [updateFrontmatter, hig]

/-- C10 witness: a throttled call (30 seconds elapsed, 60-second interval)
returns the frontmatter map unchanged. -/
theorem C10_frame_witness :
    updateFrontmatter ⟨false, 60, []⟩ "note.md"
      (fun k => if k = "last-modified" then RawValue.seq ["0001-01-01T10:00:00"] else RawValue.absent)
      ⟨1, 1, 1, 10, 0, 30⟩
      = (fun k => if k = "last-modified" then RawValue.seq ["0001-01-01T10:00:00"] else RawValue.absent) :=
  (C10_frame ⟨false, 60, []⟩ "note.md"
    (fun k => if k = "last-modified" then RawValue.seq ["0001-01-01T10:00:00"] else RawValue.absent)
    ⟨1, 1, 1, 10, 0, 30⟩).2.1 (by decide)

end LogKeeper
